import Mathlib

/-!
The download-button userscript `media/xiaoyuzhou-downloader.js`

A shallow embedding of the userscript and the properties of its filename
computation and of its click / request / timer state machine.

JavaScript strings are sequences of UTF-16 code units; the regular expressions
of the script carry no `u` flag, so they work on code units.  A string is
therefore a `List Nat` of code units here.
-/

namespace Xiaoyuzhou

/-! ## Strings -/

/-- A JavaScript string: its UTF-16 code units. -/
abbrev JSString := List Nat

/-- UTF-16 encoding of one code point. -/
def utf16 (c : Char) : List Nat :=
  if c.toNat < 65536 then [c.toNat]
  else [55296 + (c.toNat - 65536) / 1024, 56320 + (c.toNat - 65536) % 1024]

/-- The JavaScript string written as the literal `s`. -/
def js (s : String) : JSString := s.toList.flatMap utf16

/-- The character class `[\\/:*?"<>|]` of line 68: backslash, slash, colon,
asterisk, question mark, double quote, less-than, greater-than, vertical bar. -/
def illegalChars : List Nat := [92, 47, 58, 42, 63, 34, 60, 62, 124]

/-- Whether a code unit is matched by the class `[\\/:*?"<>|]`. -/
def isIllegal (u : Nat) : Bool := illegalChars.contains u

/-- The code units `String.prototype.trim` strips: ECMAScript WhiteSpace
(TAB, VT, FF, SP, NBSP, ZWNBSP and the Unicode space separators) and
LineTerminator (LF, CR, LS, PS). -/
def isWhiteSpace (u : Nat) : Bool :=
  u == 9 || u == 10 || u == 11 || u == 12 || u == 13 || u == 32 || u == 160 ||
  u == 5760 || (8192 ≤ u && u ≤ 8202) || u == 8232 || u == 8233 || u == 8239 ||
  u == 8287 || u == 12288 || u == 65279

/-- `s.trim()`: white space removed from both ends. -/
def trim (s : JSString) : JSString :=
  ((s.dropWhile isWhiteSpace).reverse.dropWhile isWhiteSpace).reverse

/-- `s.replace(/[\\/:*?"<>|]/g, "")` (line 68): the global scan, left to right;
a code unit the class matches is replaced by the empty string, any other is
copied. -/
def replaceIllegal : JSString → JSString
  | [] => []
  | u :: rest => if isIllegal u then [] ++ replaceIllegal rest else u :: replaceIllegal rest

/-- The placeholder title of line 63. -/
def defaultTitle : JSString := js "小宇宙播客"

/-- Lines 63-69: `podcastTitle` from the `header h1` element, given as the
`textContent` of the element when there is one. -/
def podcastTitle (titleElement : Option JSString) : JSString :=
  match titleElement with
  | none => defaultTitle
  | some textContent => replaceIllegal (trim textContent)

/-- Canonicalize of a case-insensitive, non-Unicode regular expression, as far as
it matters against ASCII pattern characters: a-z fold to A-Z; a code unit of 128
or more never folds to one below 128, so it is left as it is. -/
def canonicalize (u : Nat) : Nat := if 97 ≤ u ∧ u ≤ 122 then u - 32 else u

/-- One pattern character against one input code unit under the `i` flag. -/
def matchChar (p u : Nat) : Bool := canonicalize u == canonicalize p

/-- The alternatives of the group `(m4a|mp3|aac|ogg|wav)`, in order. -/
def alternatives : List (List Nat) :=
  [[109, 52, 97], [109, 112, 51], [97, 97, 99], [111, 103, 103], [119, 97, 118]]

/-- The group `(m4a|mp3|aac|ogg|wav)` against three code units. -/
def matchGroup (a b c : Nat) : Bool :=
  alternatives.any fun alt =>
    match alt with
    | [p, q, r] => matchChar p a && matchChar q b && matchChar r c
    | _ => false

/-- The lookahead `(?=\?|$)`: the rest of the input starts with `?` or is empty
(no `m` flag, so `$` is the end of the input). -/
def lookahead (rest : JSString) : Bool :=
  match rest with
  | [] => true
  | u :: _ => u == 63

/-- The pattern `/\.(m4a|mp3|aac|ogg|wav)(?=\?|$)/i` tried at the start of `s`:
the matched text (`extMatch[0]`) when it matches there. -/
def matchHere (s : JSString) : Option JSString :=
  match s with
  | d :: a :: b :: c :: rest =>
    if d == 46 && matchGroup a b c && lookahead rest then some [d, a, b, c] else none
  | _ => none

/-- `audioUrl.match(/\.(m4a|mp3|aac|ogg|wav)(?=\?|$)/i)` (line 73): the pattern
is not global, so the result is the first match scanning from index 0, or
`null`. -/
def extMatch : JSString → Option JSString
  | [] => none
  | u :: rest =>
    match matchHere (u :: rest) with
    | some m => some m
    | none => extMatch rest

/-- Lines 72-76: the inferred extension. -/
def fileExt (audioUrl : JSString) : JSString :=
  match extMatch audioUrl with
  | some m => m
  | none => js ".m4a"

/-- The filename of lines 91, 106 and 112: the template `${podcastTitle}${fileExt}`. -/
def fileName (titleElement : Option JSString) (audioUrl : JSString) : JSString :=
  podcastTitle titleElement ++ fileExt audioUrl

/-! ## The page, the control and the pending callbacks -/

/-- The four `innerHTML` values the script gives the button. -/
inductive Label
  | idle
  | busy
  | success
  | failure
  deriving DecidableEq, Repr

/-- The text of a label (lines 26, 80, 92, 100). -/
def Label.text : Label → JSString
  | .idle => js "⬇️ 下载音频"
  | .busy => js "⏳ 下载中..."
  | .success => js "✅ 下载完成"
  | .failure => js "❌ 下载失败"

/-- An element with id `xyz-download-btn`: its label and its `disabled` flag. -/
structure Button where
  label : Label
  disabled : Bool
  deriving DecidableEq, Repr

/-- A `GM_xmlhttpRequest` whose callback has not run yet, with what its `onload`
and `onerror` closures captured: `downloadBtn`, `audioUrl`, and the filename
`${podcastTitle}${fileExt}`. -/
structure Request where
  btn : Nat
  url : JSString
  filename : JSString
  deriving DecidableEq, Repr

/-- The two kinds of function the script hands to `setTimeout`. -/
inductive Callback
  /-- Lines 93-96, 101-104, 127-130: label back to idle, button enabled. -/
  | reset (btn : Nat)
  /-- Lines 124-131: remove the anchor, label success, schedule a reset. -/
  | cleanup (btn : Nat) (anchor : Nat)
  deriving DecidableEq, Repr

/-- A pending `setTimeout`: the time it is due at, and its callback. -/
structure Timer where
  due : Nat
  callback : Callback
  deriving DecidableEq, Repr

/-- What the script does to its host, in the order it does it. -/
inductive Effect
  /-- Line 44: `document.body.appendChild(downloadBtn)`. -/
  | appendButton (btn : Nat)
  /-- Lines 51 and 58. -/
  | alert (message : JSString)
  /-- Lines 79, 95, 103, 129: `downloadBtn.disabled = v`. -/
  | setDisabled (btn : Nat) (v : Bool)
  /-- Lines 80, 92, 94, 100, 102, 126, 128: `downloadBtn.innerHTML = ...`. -/
  | setLabel (btn : Nat) (l : Label)
  /-- Line 84: the call of `GM_xmlhttpRequest` for `url`. -/
  | xmlhttpRequest (url : JSString)
  /-- Line 91: `saveAs(blob, filename)`. -/
  | saveAs (filename : JSString)
  /-- Lines 99 and 110: `console.error`. -/
  | consoleError
  /-- Lines 118-121: an anchor created with its `href` and `download`. -/
  | createAnchor (anchor : Nat) (href download : JSString)
  /-- Line 122: `document.body.appendChild(a)`. -/
  | appendAnchor (anchor : Nat)
  /-- Line 123: `a.click()`. -/
  | clickAnchor (anchor : Nat)
  /-- Line 125: `document.body.removeChild(a)`. -/
  | removeAnchor (anchor : Nat)
  deriving DecidableEq, Repr

/-- The page as the script sees it, the script's pending callbacks, the clock
(milliseconds) and the trace of effects so far. -/
structure State where
  /-- `textContent` of `document.querySelector("header h1")`, when there is one. -/
  titleElement : Option JSString
  /-- `src` of `document.querySelector("audio")`, when there is one. -/
  audioElement : Option JSString
  /-- The elements with id `xyz-download-btn`, in document order. -/
  buttons : List Button
  requests : List Request
  timers : List Timer
  /-- The number of anchors created so far; the next anchor gets this number. -/
  anchors : Nat
  now : Nat
  log : List Effect
  deriving DecidableEq, Repr

/-- What can happen to the script. -/
inductive Event
  /-- A `load` event on `window`. -/
  | load
  /-- The `MutationObserver` callback runs. -/
  | mutation
  /-- A click on button `btn`; `throws` tells whether `GM_xmlhttpRequest`, if the
  handler gets to call it, throws. -/
  | click (btn : Nat) (throws : Bool)
  /-- The `onload` callback of the `i`-th pending request runs. -/
  | onload (i : Nat)
  /-- The `onerror` callback of the `i`-th pending request runs. -/
  | onerror (i : Nat)
  /-- The `i`-th pending timer fires (only when it is due). -/
  | timer (i : Nat)
  /-- Time passes. -/
  | tick (ms : Nat)
  /-- The page replaces, adds or removes its audio element. -/
  | setAudio (src : Option JSString)
  /-- The page replaces, adds or removes its `header h1`. -/
  | setTitle (textContent : Option JSString)
  deriving DecidableEq, Repr

/-- The state in which the script starts on a page: no button, nothing pending. -/
def State.initial (titleElement audioElement : Option JSString) : State :=
  { titleElement := titleElement, audioElement := audioElement, buttons := [],
    requests := [], timers := [], anchors := 0, now := 0, log := [] }

/-! ## The script -/

/-- `downloadBtn.innerHTML = l` for the button `btn`. -/
def setLabel (btn : Nat) (l : Label) (s : State) : State :=
  { s with buttons := s.buttons.modify (fun b => { b with label := l }) btn,
           log := s.log ++ [.setLabel btn l] }

/-- `downloadBtn.disabled = v` for the button `btn`. -/
def setDisabled (btn : Nat) (v : Bool) (s : State) : State :=
  { s with buttons := s.buttons.modify (fun b => { b with disabled := v }) btn,
           log := s.log ++ [.setDisabled btn v] }

/-- `setTimeout(callback, delay)`. -/
def setTimeout (callback : Callback) (delay : Nat) (s : State) : State :=
  { s with timers := s.timers ++ [{ due := s.now + delay, callback := callback }] }

/-- One effect appended to the trace. -/
def emit (e : Effect) (s : State) : State := { s with log := s.log ++ [e] }

/-- Lines 117-132, up to the `setTimeout` of line 124: `fallbackDownload` of the
closure whose button is `btn`. -/
def fallbackDownload (btn : Nat) (url filename : JSString) (s : State) : State :=
  let a := s.anchors
  let s := { s with anchors := a + 1 }
  let s := emit (.createAnchor a url filename) s
  let s := emit (.appendAnchor a) s
  let s := emit (.clickAnchor a) s
  setTimeout (.cleanup btn a) 100 s

/-- Lines 19-44: the `load` listener. -/
def onLoad (s : State) : State :=
  if s.buttons.isEmpty then
    let btn := s.buttons.length
    emit (.appendButton btn)
      { s with buttons := s.buttons ++ [{ label := .idle, disabled := false }] }
  else s

/-- Lines 136-145: the `MutationObserver` callback. -/
def onMutation (s : State) : State :=
  if s.buttons.isEmpty && s.audioElement.isSome then onLoad s else s

/-- Lines 47-114: the click listener of button `btn`.  A disabled button gets
no click event, so the listener does not run for it. -/
def onClick (btn : Nat) (throws : Bool) (s : State) : State :=
  match s.buttons[btn]? with
  | none => s
  | some b =>
    if b.disabled then s
    else
      match s.audioElement with
      | none => emit (.alert (js "未找到音频元素！请先播放节目")) s
      | some audioUrl =>
        if audioUrl.isEmpty then emit (.alert (js "未找到音频链接！")) s
        else
          let filename := podcastTitle s.titleElement ++ fileExt audioUrl
          let s := setDisabled btn true s
          let s := setLabel btn .busy s
          let s := emit (.xmlhttpRequest audioUrl) s
          if throws then
            let s := emit .consoleError s
            fallbackDownload btn audioUrl filename s
          else
            { s with requests := s.requests ++ [{ btn := btn, url := audioUrl, filename := filename }] }

/-- Lines 88-97: `onload` of the `i`-th pending request. -/
def onRequestLoad (i : Nat) (s : State) : State :=
  match s.requests[i]? with
  | none => s
  | some r =>
    let s := { s with requests := s.requests.eraseIdx i }
    let s := emit (.saveAs r.filename) s
    let s := setLabel r.btn .success s
    setTimeout (.reset r.btn) 2000 s

/-- Lines 98-107: `onerror` of the `i`-th pending request. -/
def onRequestError (i : Nat) (s : State) : State :=
  match s.requests[i]? with
  | none => s
  | some r =>
    let s := { s with requests := s.requests.eraseIdx i }
    let s := emit .consoleError s
    let s := setLabel r.btn .failure s
    let s := setTimeout (.reset r.btn) 2000 s
    fallbackDownload r.btn r.url r.filename s

/-- The body of a timer callback. -/
def runCallback (c : Callback) (s : State) : State :=
  match c with
  | .reset btn =>
    let s := setLabel btn .idle s
    setDisabled btn false s
  | .cleanup btn a =>
    let s := emit (.removeAnchor a) s
    let s := setLabel btn .success s
    setTimeout (.reset btn) 2000 s

/-- The `i`-th pending timer fires, if it is due. -/
def onTimer (i : Nat) (s : State) : State :=
  match s.timers[i]? with
  | none => s
  | some t =>
    if t.due ≤ s.now then runCallback t.callback { s with timers := s.timers.eraseIdx i }
    else s

/-- One event.  An event the browser cannot deliver (a click on a missing or
disabled button, a callback that is not pending, a timer that is not due) leaves
the state as it is. -/
def step (s : State) : Event → State
  | .load => onLoad s
  | .mutation => onMutation s
  | .click btn throws => onClick btn throws s
  | .onload i => onRequestLoad i s
  | .onerror i => onRequestError i s
  | .timer i => onTimer i s
  | .tick ms => { s with now := s.now + ms }
  | .setAudio src => { s with audioElement := src }
  | .setTitle t => { s with titleElement := t }

/-- A sequence of events, first to last. -/
def run (s : State) (events : List Event) : State := events.foldl step s

/-! ## The words of the specification -/

/-- ASCII lower-casing of one code unit. -/
def lower (u : Nat) : Nat := if 65 ≤ u ∧ u ≤ 90 then u + 32 else u

/-- The specification's extensions: `e` is one of `.m4a`, `.mp3`, `.aac`, `.ogg`,
`.wav`, compared without regard to letter case. -/
def isAudioExt (e : JSString) : Bool :=
  [js ".m4a", js ".mp3", js ".aac", js ".ogg", js ".wav"].contains (e.map lower)

/-- The specification's "optionally followed by a query string": nothing, or
text that starts with `?`. -/
def isQueryOrEnd (q : JSString) : Bool := q.isEmpty || q.head? == some 63

/-- The URL reads `pre`, then the extension `e`, then `q`, where `e` is one of the
five extensions and `q` is empty or a query string. -/
def EndsWithExt (url pre e q : JSString) : Prop :=
  url = pre ++ e ++ q ∧ isAudioExt e = true ∧ isQueryOrEnd q = true

/-- The specification's sanitised title: the title with the nine characters
deleted and nothing else touched. -/
def deleteIllegal (title : JSString) : JSString :=
  title.filter fun u => decide (u ∉ illegalChars)

/-- A filename is safe: none of the nine characters occurs in it, and it ends
with one of the five extensions (up to letter case). -/
def SafeName (f : JSString) : Prop :=
  (∀ u ∈ illegalChars, u ∉ f) ∧ ∃ t e, f = t ++ e ∧ e.length = 4 ∧ isAudioExt e = true

/-! ## Auxiliary definitions for the proofs -/

/-- An extension followed by the end or by a query starts at index `i` of `url`. -/
def extAt (url : JSString) (i : Nat) : Bool :=
  isAudioExt ((url.drop i).take 4) && isQueryOrEnd (url.drop (i + 4))

/-- The filename an effect hands to the host: that of a `saveAs` call or the
`download` of a created anchor. -/
def Effect.handedName : Effect → Option JSString
  | .saveAs f => some f
  | .createAnchor _ _ f => some f
  | _ => none

/-- Every filename a pending request holds, and every filename handed out so far,
is safe. -/
def NamesSafe (s : State) : Prop :=
  (∀ r ∈ s.requests, SafeName r.filename) ∧
    (∀ e ∈ s.log, ∀ f, e.handedName = some f → SafeName f)

/-! ## Strings: lemmas -/

/-- The code units of `illegalChars` are the characters of the class as written in
the source. -/
theorem illegalChars_eq : illegalChars = js "\\/:*?\"<>|" := by decide

/-- The code units of `alternatives` are the alternatives as written in the source. -/
theorem alternatives_eq : alternatives = [js "m4a", js "mp3", js "aac", js "ogg", js "wav"] := by
  decide

theorem isIllegal_iff (u : Nat) : isIllegal u = true ↔ u ∈ illegalChars := by
  simp [isIllegal]

theorem replaceIllegal_eq_deleteIllegal (s : JSString) : replaceIllegal s = deleteIllegal s := by
  induction s with
  | nil => rfl
  | cons u rest ih =>
    unfold deleteIllegal at ih ⊢
    by_cases h : u ∈ illegalChars
    · simp [replaceIllegal, (isIllegal_iff u).2 h, h, ih]
    · have h' : isIllegal u = false := by
        cases hb : isIllegal u
        · rfl
        · exact absurd ((isIllegal_iff u).1 hb) h
      simp [replaceIllegal, h', h, ih]

theorem trim_sublist (s : JSString) : (trim s).Sublist s := by
  unfold trim
  have h1 : ((s.dropWhile isWhiteSpace).reverse.dropWhile isWhiteSpace).Sublist
      (s.dropWhile isWhiteSpace).reverse := List.dropWhile_sublist _
  have h2 := h1.reverse
  rw [List.reverse_reverse] at h2
  exact h2.trans (List.dropWhile_sublist _)

theorem not_mem_deleteIllegal (s : JSString) (u : Nat) (hu : u ∈ illegalChars) :
    u ∉ deleteIllegal s := by
  simp [deleteIllegal, hu]

theorem audioExts_eq : [js ".m4a", js ".mp3", js ".aac", js ".ogg", js ".wav"]
    = [[46, 109, 52, 97], [46, 109, 112, 51], [46, 97, 97, 99], [46, 111, 103, 103],
       [46, 119, 97, 118]] := by decide

theorem matchChar_eq (p u : Nat) (hp : (97 ≤ p ∧ p ≤ 122) ∨ (48 ≤ p ∧ p ≤ 57)) :
    matchChar p u = (lower u == p) := by
  rw [Bool.eq_iff_iff]
  simp only [matchChar, canonicalize, lower, beq_iff_eq]
  split_ifs <;> omega

theorem lower_eq_dot (d : Nat) : lower d = 46 ↔ d = 46 := by
  simp only [lower]
  split_ifs <;> omega

theorem matchGroup_eq (d a b c : Nat) :
    (d == 46 && matchGroup a b c) = isAudioExt [d, a, b, c] := by
  unfold isAudioExt
  rw [audioExts_eq, Bool.eq_iff_iff]
  simp only [matchGroup, alternatives, List.any_cons, List.any_nil]
  simp [matchChar_eq, lower_eq_dot, and_or_left, and_assoc]

theorem length_of_isAudioExt (e : JSString) (h : isAudioExt e = true) : e.length = 4 := by
  unfold isAudioExt at h
  rw [audioExts_eq] at h
  simp only [List.contains_eq_any_beq, List.any_cons, List.any_nil, Bool.or_false,
    Bool.or_eq_true, beq_iff_eq] at h
  rcases h with h | h | h | h | h <;> simpa using congrArg List.length h

theorem lookahead_eq (rest : JSString) : lookahead rest = isQueryOrEnd rest := by
  cases rest <;> simp [lookahead, isQueryOrEnd]

theorem matchHere_eq (s : JSString) :
    matchHere s
      = if isAudioExt (s.take 4) && isQueryOrEnd (s.drop 4) then some (s.take 4) else none := by
  have short : ∀ t : JSString, t.length < 4 → isAudioExt t = false := by
    intro t ht
    cases h : isAudioExt t
    · rfl
    · have := length_of_isAudioExt t h
      omega
  match s with
  | [] => simp [matchHere, short]
  | [a] => simp [matchHere, short]
  | [a, b] => simp [matchHere, short]
  | [a, b, c] => simp [matchHere, short]
  | d :: a :: b :: c :: rest =>
    simp only [matchHere, List.take_succ_cons, List.take_zero, List.drop_succ_cons, List.drop_zero]
    rw [← matchGroup_eq, lookahead_eq]

theorem matchHere_of_endsWithExt (e q : JSString) (he : isAudioExt e = true)
    (hq : isQueryOrEnd q = true) : matchHere (e ++ q) = some e := by
  have hl := length_of_isAudioExt e he
  rw [matchHere_eq]
  have h1 : (e ++ q).take 4 = e := by rw [← hl]; simp
  have h2 : (e ++ q).drop 4 = q := by rw [← hl]; simp
  simp [h1, h2, he, hq]

theorem endsWithExt_of_matchHere (s m : JSString) (h : matchHere s = some m) :
    EndsWithExt s [] m (s.drop 4) ∧ m = s.take 4 := by
  rw [matchHere_eq] at h
  split at h
  · rename_i hc
    simp only [Bool.and_eq_true] at hc
    simp only [Option.some.injEq] at h
    subst h
    exact ⟨⟨by simp, hc.1, hc.2⟩, rfl⟩
  · simp at h

theorem extMatch_cons (u : Nat) (rest : JSString) :
    extMatch (u :: rest)
      = match matchHere (u :: rest) with
        | some m => some m
        | none => extMatch rest := by
  rw [extMatch]

theorem extMatch_of_leftmost (pre : JSString) :
    ∀ (url e q : JSString), EndsWithExt url pre e q →
      (∀ pre' e' q', EndsWithExt url pre' e' q' → pre.length ≤ pre'.length) →
      extMatch url = some e := by
  induction pre with
  | nil =>
    intro url e q h _
    obtain ⟨hurl, he, hq⟩ := h
    have hl := length_of_isAudioExt e he
    have hm := matchHere_of_endsWithExt e q he hq
    simp only [List.nil_append] at hurl
    subst hurl
    match e, hl with
    | d :: e', _ =>
      rw [List.cons_append] at hm ⊢
      rw [extMatch_cons, hm]
  | cons p pre ih =>
    intro url e q h hmin
    obtain ⟨hurl, he, hq⟩ := h
    subst hurl
    simp only [List.cons_append, List.append_assoc] at hmin ⊢
    rw [extMatch_cons]
    cases hm : matchHere (p :: (pre ++ (e ++ q))) with
    | some m =>
      have h0 := (endsWithExt_of_matchHere _ _ hm).1
      have := hmin [] m _ h0
      simp at this
    | none =>
      simp only
      apply ih (pre ++ (e ++ q)) e q ⟨by simp, he, hq⟩
      intro pre' e' q' h'
      obtain ⟨hurl', he', hq'⟩ := h'
      have := hmin (p :: pre') e' q' ⟨by simp [hurl'], he', hq'⟩
      simpa using this

theorem extMatch_none (url : JSString) (h : ∀ pre e q, ¬ EndsWithExt url pre e q) :
    extMatch url = none := by
  induction url with
  | nil => rfl
  | cons u rest ih =>
    rw [extMatch_cons]
    cases hm : matchHere (u :: rest) with
    | some m => exact absurd (endsWithExt_of_matchHere _ _ hm).1 (h _ _ _)
    | none =>
      simp only
      apply ih
      intro pre e q h'
      obtain ⟨hurl, he, hq⟩ := h'
      exact h (u :: pre) e q ⟨by simp [hurl], he, hq⟩

theorem isAudioExt_of_extMatch (url m : JSString) (h : extMatch url = some m) :
    isAudioExt m = true := by
  induction url with
  | nil => simp [extMatch] at h
  | cons u rest ih =>
    rw [extMatch_cons] at h
    cases hm : matchHere (u :: rest) with
    | some m' =>
      rw [hm] at h
      simp only [Option.some.injEq] at h
      subst h
      exact (endsWithExt_of_matchHere _ _ hm).1.2.1
    | none =>
      rw [hm] at h
      exact ih h

theorem extAt_of_endsWithExt (url pre e q : JSString) (h : EndsWithExt url pre e q) :
    extAt url pre.length = true := by
  obtain ⟨hurl, he, hq⟩ := h
  have hl := length_of_isAudioExt e he
  subst hurl
  have h1 : ((pre ++ e ++ q).drop pre.length).take 4 = e := by
    rw [List.append_assoc, List.drop_left, ← hl]; simp
  have h2 : (pre ++ e ++ q).drop (pre.length + 4) = q := by
    rw [← hl, ← List.length_append]; simp
  unfold extAt
  rw [h1, h2, he, hq]
  rfl

theorem leftmost_of_extAt (url : JSString) (n : Nat) (h : ∀ j, j < n → extAt url j = false)
    (pre e q : JSString) (hocc : EndsWithExt url pre e q) : n ≤ pre.length := by
  by_contra hlt
  have := h pre.length (by omega)
  rw [extAt_of_endsWithExt url pre e q hocc] at this
  exact absurd this (by simp)

theorem no_endsWithExt_of_extAt (url : JSString)
    (h : ∀ j, j < url.length + 1 → extAt url j = false) (pre e q : JSString) :
    ¬ EndsWithExt url pre e q := by
  intro hocc
  have h1 := leftmost_of_extAt url (url.length + 1) h pre e q hocc
  have h2 : pre.length ≤ url.length := by
    rw [hocc.1]; simp
  omega

theorem leftmost_of_no_query (url pre e q : JSString) (h : EndsWithExt url pre e q)
    (hno : 63 ∉ pre ++ e) (pre' e' q' : JSString) (h' : EndsWithExt url pre' e' q') :
    pre.length ≤ pre'.length := by
  by_contra hlt
  obtain ⟨hurl, he, _⟩ := h
  obtain ⟨hurl', he', hq'⟩ := h'
  have hl := length_of_isAudioExt e he
  have hl' := length_of_isAudioExt e' he'
  have hlen : url.length = pre.length + 4 + q.length := by
    rw [hurl]; simp [hl]; omega
  cases q' with
  | nil =>
    have : url.length = pre'.length + 4 := by rw [hurl']; simp [hl']
    omega
  | cons c r =>
    have hc : c = 63 := by simpa [isQueryOrEnd] using hq'
    subst hc
    have h1 : url[pre'.length + 4]? = some 63 := by
      rw [hurl', List.getElem?_append_right (by simp [hl'])]
      simp [hl']
    have h2 : url[pre'.length + 4]? = (pre ++ e)[pre'.length + 4]? := by
      rw [hurl]
      exact List.getElem?_append_left (by simp [hl]; omega)
    rw [h2] at h1
    exact hno (List.getElem?_mem h1)

/-! ## Filename: theorems -/

/-- C1, as stated, fails: for the heading text " a/b " (white space at both ends) the
title part is "ab", while the title with only the nine characters deleted is " ab ". -/
theorem podcastTitle_trims :
    podcastTitle (some (js " a/b ")) = js "ab" ∧ deleteIllegal (js " a/b ") = js " ab " ∧
      podcastTitle (some (js " a/b ")) ≠ deleteIllegal (js " a/b ") := by
  decide

/-- C1 (amended): for every heading text, the title part is the trimmed text with
exactly the nine characters deleted; none of the nine characters occurs in it, and
it is a subsequence of the heading text (order kept, nothing added). -/
theorem podcastTitle_sanitized (title : JSString) :
    podcastTitle (some title) = deleteIllegal (trim title) ∧
      (∀ u ∈ illegalChars, u ∉ podcastTitle (some title)) ∧
      (podcastTitle (some title)).Sublist title := by
  have h : podcastTitle (some title) = deleteIllegal (trim title) :=
    replaceIllegal_eq_deleteIllegal (trim title)
  refine ⟨h, ?_, ?_⟩
  · intro u hu
    rw [h]
    exact not_mem_deleteIllegal _ u hu
  · rw [h]
    exact (List.filter_sublist _).trans (trim_sublist title)

/-- C2, as stated, fails, however "ends in an extension, optionally followed by a
query string" is read.  The first URL ends in `.ogg` (with no query string after
it), yet the inferred extension is `.mp3`, the extension before the `?`.  In the
second URL no extension stands before the `?` (every reading of it as extension
plus query has a `?` before the extension), yet the inferred extension is `.mp3`
and not the default `.m4a`. -/
theorem fileExt_not_last :
    (EndsWithExt (js "https://cdn.example.net/a.mp3?name=a.ogg")
        (js "https://cdn.example.net/a.mp3?name=a") (js ".ogg") [] ∧
      fileExt (js "https://cdn.example.net/a.mp3?name=a.ogg") = js ".mp3" ∧
      fileExt (js "https://cdn.example.net/a.mp3?name=a.ogg") ≠ js ".ogg") ∧
    ((∀ pre e q, EndsWithExt (js "https://cdn.example.net/get?file=a.mp3") pre e q → 63 ∈ pre) ∧
      fileExt (js "https://cdn.example.net/get?file=a.mp3") = js ".mp3" ∧
      fileExt (js "https://cdn.example.net/get?file=a.mp3") ≠ js ".m4a") := by
  refine ⟨⟨⟨?_, ?_, ?_⟩, ?_, ?_⟩, ?_, ?_, ?_⟩
  · decide
  · decide
  · decide
  · decide
  · decide
  · intro pre e q h
    have h1 := leftmost_of_extAt (js "https://cdn.example.net/get?file=a.mp3") 34 (by decide)
      pre e q h
    have h2 : pre = (pre ++ e ++ q).take pre.length := by simp
    rw [← h.1] at h2
    have h3 : 63 ∈ (js "https://cdn.example.net/get?file=a.mp3").take 34 := by decide
    have h4 : ((js "https://cdn.example.net/get?file=a.mp3").take 34).Sublist
        ((js "https://cdn.example.net/get?file=a.mp3").take pre.length) :=
      List.take_sublist_take_left _ h1
    rw [h2]
    exact h4.subset h3
  · decide
  · decide

/-- C2 (amended): when the URL reads `pre ++ e ++ q` with `e` one of the five
extensions (up to letter case) and `q` empty or starting with `?`, and no such
reading has a shorter `pre` (it is the leftmost one), the inferred extension is
`e`; this is so in particular when no `?` stands before the end of `e` (the
extension ends the URL's path); when the URL has no such reading at all, the
inferred extension is `.m4a`. -/
theorem fileExt_leftmost (url : JSString) :
    (∀ pre e q, EndsWithExt url pre e q →
        (∀ pre' e' q', EndsWithExt url pre' e' q' → pre.length ≤ pre'.length) →
        fileExt url = e) ∧
      (∀ pre e q, EndsWithExt url pre e q → 63 ∉ pre ++ e → fileExt url = e) ∧
      ((∀ pre e q, ¬ EndsWithExt url pre e q) → fileExt url = js ".m4a") := by
  refine ⟨?_, ?_, ?_⟩
  · intro pre e q h hmin
    simp only [fileExt, extMatch_of_leftmost pre url e q h hmin]
  · intro pre e q h hno
    simp only [fileExt,
      extMatch_of_leftmost pre url e q h (leftmost_of_no_query url pre e q h hno)]
  · intro h
    simp only [fileExt, extMatch_none url h]

/-- C2 (amended), at concrete URLs: one with `.MP3` before a query string that
itself ends in `.ogg`, one that ends in `.wav`, and one with no extension. -/
theorem fileExt_leftmost_witness :
    fileExt (js "https://cdn.example.net/a.MP3?name=a.ogg") = js ".MP3" ∧
      fileExt (js "https://cdn.example.net/a.wav") = js ".wav" ∧
      fileExt (js "https://cdn.example.net/stream") = js ".m4a" :=
  ⟨(fileExt_leftmost (js "https://cdn.example.net/a.MP3?name=a.ogg")).1
      (js "https://cdn.example.net/a") (js ".MP3") (js "?name=a.ogg")
      ⟨by decide, by decide, by decide⟩
      (leftmost_of_extAt _ _ (by decide)),
    (fileExt_leftmost (js "https://cdn.example.net/a.wav")).2.1
      (js "https://cdn.example.net/a") (js ".wav") []
      ⟨by decide, by decide, by decide⟩ (by decide),
    (fileExt_leftmost (js "https://cdn.example.net/stream")).2.2
      (no_endsWithExt_of_extAt _ (by decide))⟩

/-! ## The state machine: theorems -/

theorem eraseIdx_append_length {α : Type} (l l' : List α) (x : α) :
    (l ++ x :: l').eraseIdx l.length = l ++ l' := by
  rw [List.eraseIdx_append_of_length_le (Nat.le_refl _)]
  simp

theorem getElem?_append_length_succ {α : Type} (l : List α) (x y : α) :
    (l ++ [x, y])[l.length + 1]? = some y := by
  rw [List.getElem?_append_right (Nat.le_succ _)]
  simp

theorem step_timer_due (s : State) (i : Nat) (t : Timer) (h : s.timers[i]? = some t)
    (hd : t.due ≤ s.now) :
    step s (.timer i) = runCallback t.callback { s with timers := s.timers.eraseIdx i } := by
  simp only [step, onTimer, h, hd, if_true]

theorem step_timer_early (s : State) (i : Nat) (t : Timer) (h : s.timers[i]? = some t)
    (hd : s.now < t.due) : step s (.timer i) = s := by
  have : ¬ t.due ≤ s.now := by omega
  simp only [step, onTimer, h, this, if_false]

theorem eraseIdx_append_length_succ {α : Type} (l : List α) (x y : α) :
    (l ++ [x, y]).eraseIdx (l.length + 1) = l ++ [x] := by
  rw [List.eraseIdx_append_of_length_le (Nat.le_succ _)]
  simp

/-- C4: a click on an enabled button while the page has no audio element, or its
audio element has an empty `src`, appends exactly one alert to the trace and
changes nothing else: no request, no save, no anchor, no timer, and the button
keeps its label and its `disabled` flag. -/
theorem click_without_audio (s : State) (btn : Nat) (throws : Bool) (b : Button)
    (hb : s.buttons[btn]? = some b) (he : b.disabled = false)
    (ha : s.audioElement = none ∨ s.audioElement = some []) :
    step s (.click btn throws)
      = { s with log := s.log ++ [.alert (if s.audioElement = none
                  then js "未找到音频元素！请先播放节目" else js "未找到音频链接！")] } := by
  rcases ha with ha | ha <;> simp [step, onClick, hb, he, ha, emit]

/-- C4 at a concrete page: no audio element, button freshly rendered. -/
theorem click_without_audio_witness :
    step (run (State.initial none none) [.load]) (.click 0 false)
      = { run (State.initial none none) [.load] with
          log := [.appendButton 0, .alert (js "未找到音频元素！请先播放节目")] } :=
  click_without_audio (run (State.initial none none) [.load]) 0 false
    { label := .idle, disabled := false } (by decide) (by decide) (by decide)

/-- A successful download whose own events run with no other callback in between.
From any state whose button `btn` is idle and enabled, on a page whose
audio element has the non-empty `src` `url`: the click disables the button, labels
it busy and issues one request; the request's `onload` makes exactly one `saveAs`
call, with the filename `podcastTitle ++ fileExt`, labels the button success and
schedules the reset for 2000 ms later; no anchor is created; the reset timer does
nothing before it is due (`d₂ < 2000`), and when it fires (`2000 ≤ d₃`) the button
is idle and enabled again.  The button is disabled from the click to the reset. -/
theorem download_success (s : State) (btn : Nat) (url : JSString) (d₁ d₂ d₃ : Nat)
    (hb : s.buttons[btn]? = some { label := .idle, disabled := false })
    (ha : s.audioElement = some url) (hu : url ≠ [])
    (hearly : d₂ < 2000) (hdue : 2000 ≤ d₃) :
    ((run s [.click btn false]).log
        = s.log ++ [.setDisabled btn true, .setLabel btn .busy, .xmlhttpRequest url] ∧
      (run s [.click btn false]).buttons[btn]? = some { label := .busy, disabled := true } ∧
      (run s [.click btn false]).requests
        = s.requests ++ [{ btn := btn, url := url, filename := fileName s.titleElement url }]) ∧
    ((run s [.click btn false, .tick d₁, .onload s.requests.length]).log
        = s.log ++ [.setDisabled btn true, .setLabel btn .busy, .xmlhttpRequest url,
            .saveAs (fileName s.titleElement url), .setLabel btn .success] ∧
      (run s [.click btn false, .tick d₁, .onload s.requests.length]).buttons[btn]?
        = some { label := .success, disabled := true } ∧
      (run s [.click btn false, .tick d₁, .onload s.requests.length]).requests = s.requests ∧
      (run s [.click btn false, .tick d₁, .onload s.requests.length]).timers
        = s.timers ++ [{ due := s.now + d₁ + 2000, callback := .reset btn }]) ∧
    run s [.click btn false, .tick d₁, .onload s.requests.length, .tick d₂,
        .timer s.timers.length]
      = run s [.click btn false, .tick d₁, .onload s.requests.length, .tick d₂] ∧
    ((run s [.click btn false, .tick d₁, .onload s.requests.length, .tick d₃,
          .timer s.timers.length]).log
        = s.log ++ [.setDisabled btn true, .setLabel btn .busy, .xmlhttpRequest url,
            .saveAs (fileName s.titleElement url), .setLabel btn .success,
            .setLabel btn .idle, .setDisabled btn false] ∧
      (run s [.click btn false, .tick d₁, .onload s.requests.length, .tick d₃,
          .timer s.timers.length]).buttons[btn]? = some { label := .idle, disabled := false } ∧
      (run s [.click btn false, .tick d₁, .onload s.requests.length, .tick d₃,
          .timer s.timers.length]).timers = s.timers ∧
      (run s [.click btn false, .tick d₁, .onload s.requests.length, .tick d₃,
          .timer s.timers.length]).anchors = s.anchors) := by
  have hu' : url.isEmpty = false := by cases url <;> simp_all
  refine ⟨?_, ?_, ?_, ?_⟩
  · simp [run, step, onClick, hb, ha, hu', emit, setLabel, setDisabled, fileName]
  · simp [run, step, onClick, onRequestLoad, hb, ha, hu', emit, setLabel, setDisabled,
      setTimeout, fileName, eraseIdx_append_length]
  · simp [run, step, onClick, onRequestLoad, onTimer, hb, ha, hu', emit, setLabel, setDisabled,
      setTimeout, fileName, eraseIdx_append_length]
    omega
  · simp [run, step, onClick, onRequestLoad, onTimer, runCallback, hb, ha, hu', hdue, emit,
      setLabel, setDisabled, setTimeout, fileName, eraseIdx_append_length]

/-- The successful download at a concrete page: heading "Ep. 1", audio at
`https://cdn.example.net/e1.mp3`, button freshly rendered; the response arrives after 350 ms and the reset timer fires
2000 ms after it. -/
theorem download_success_witness :
    (run (State.initial (some (js "Ep. 1")) (some (js "https://cdn.example.net/e1.mp3")))
        [.load, .click 0 false, .tick 350, .onload 0, .tick 2000, .timer 0]).log
      = [.appendButton 0, .setDisabled 0 true, .setLabel 0 .busy,
          .xmlhttpRequest (js "https://cdn.example.net/e1.mp3"), .saveAs (js "Ep. 1.mp3"),
          .setLabel 0 .success, .setLabel 0 .idle, .setDisabled 0 false] :=
  (download_success
    (run (State.initial (some (js "Ep. 1")) (some (js "https://cdn.example.net/e1.mp3"))) [.load])
    0 (js "https://cdn.example.net/e1.mp3") 350 1999 2000
    (by decide) (by decide) (by decide) (by decide) (by decide)).2.2.2.1.trans (by decide)

/-- C6: from any state whose button `btn` is enabled, on a page whose audio element
has the non-empty `src` `url`: when the request of the click ends in `onerror`, the
handler creates exactly one anchor, with `href` the URL and `download` the filename
`podcastTitle ++ fileExt`, appends it and clicks it once, and makes no `saveAs`
call; the cleanup timer does nothing before it is due (`d₂ < 100`), and when it
fires (`100 ≤ d₃`) that anchor is removed. -/
theorem download_error_fallback (s : State) (btn : Nat) (b : Button) (url : JSString)
    (d₁ d₂ d₃ : Nat)
    (hb : s.buttons[btn]? = some b) (he : b.disabled = false)
    (ha : s.audioElement = some url) (hu : url ≠ [])
    (hearly : d₂ < 100) (hdue : 100 ≤ d₃) :
    ((run s [.click btn false, .tick d₁, .onerror s.requests.length]).log
        = s.log ++ [.setDisabled btn true, .setLabel btn .busy, .xmlhttpRequest url,
            .consoleError, .setLabel btn .failure,
            .createAnchor s.anchors url (fileName s.titleElement url),
            .appendAnchor s.anchors, .clickAnchor s.anchors] ∧
      (run s [.click btn false, .tick d₁, .onerror s.requests.length]).requests = s.requests ∧
      (run s [.click btn false, .tick d₁, .onerror s.requests.length]).timers
        = s.timers ++ [{ due := s.now + d₁ + 2000, callback := .reset btn },
            { due := s.now + d₁ + 100, callback := .cleanup btn s.anchors }]) ∧
    run s [.click btn false, .tick d₁, .onerror s.requests.length, .tick d₂,
        .timer (s.timers.length + 1)]
      = run s [.click btn false, .tick d₁, .onerror s.requests.length, .tick d₂] ∧
    ((run s [.click btn false, .tick d₁, .onerror s.requests.length, .tick d₃,
          .timer (s.timers.length + 1)]).log
        = s.log ++ [.setDisabled btn true, .setLabel btn .busy, .xmlhttpRequest url,
            .consoleError, .setLabel btn .failure,
            .createAnchor s.anchors url (fileName s.titleElement url),
            .appendAnchor s.anchors, .clickAnchor s.anchors,
            .removeAnchor s.anchors, .setLabel btn .success] ∧
      (run s [.click btn false, .tick d₁, .onerror s.requests.length, .tick d₃,
          .timer (s.timers.length + 1)]).anchors = s.anchors + 1) := by
  have hu' : url.isEmpty = false := by cases url <;> simp_all
  have h3 : (run s [.click btn false, .tick d₁, .onerror s.requests.length]).log
        = s.log ++ [.setDisabled btn true, .setLabel btn .busy, .xmlhttpRequest url,
            .consoleError, .setLabel btn .failure,
            .createAnchor s.anchors url (fileName s.titleElement url),
            .appendAnchor s.anchors, .clickAnchor s.anchors] ∧
      (run s [.click btn false, .tick d₁, .onerror s.requests.length]).requests = s.requests ∧
      (run s [.click btn false, .tick d₁, .onerror s.requests.length]).timers
        = s.timers ++ [{ due := s.now + d₁ + 2000, callback := .reset btn },
            { due := s.now + d₁ + 100, callback := .cleanup btn s.anchors }] ∧
      (run s [.click btn false, .tick d₁, .onerror s.requests.length]).now = s.now + d₁ ∧
      (run s [.click btn false, .tick d₁, .onerror s.requests.length]).anchors
        = s.anchors + 1 := by
    simp [run, step, onClick, onRequestError, fallbackDownload, hb, he, ha, hu', emit, setLabel,
      setDisabled, setTimeout, fileName, eraseIdx_append_length]
  obtain ⟨hlog, hreq, htim, hnow, hanc⟩ := h3
  have split : ∀ d i, run s [.click btn false, .tick d₁, .onerror s.requests.length, .tick d,
      .timer i]
        = step (step (run s [.click btn false, .tick d₁, .onerror s.requests.length]) (.tick d))
            (.timer i) := fun _ _ => rfl
  have split' : ∀ d, run s [.click btn false, .tick d₁, .onerror s.requests.length, .tick d]
        = step (run s [.click btn false, .tick d₁, .onerror s.requests.length]) (.tick d) :=
    fun _ => rfl
  have hget : ∀ d, (step (run s [.click btn false, .tick d₁, .onerror s.requests.length])
      (.tick d)).timers[s.timers.length + 1]?
        = some { due := s.now + d₁ + 100, callback := .cleanup btn s.anchors } := by
    intro d
    simp only [step, htim]
    exact getElem?_append_length_succ _ _ _
  refine ⟨⟨hlog, hreq, htim⟩, ?_, ?_⟩
  · rw [split, split']
    apply step_timer_early _ _ _ (hget d₂)
    simp only [step, hnow]
    omega
  · rw [split, step_timer_due _ _ _ (hget d₃) (by simp only [step, hnow]; omega)]
    simp [runCallback, emit, setLabel, setTimeout, step, hlog, hanc]

/-- C6 at a concrete page: no heading, audio at `https://cdn.example.net/e1.ogg?k=1`,
button freshly rendered; the request fails after 350 ms and the cleanup timer
fires 100 ms after that. -/
theorem download_error_fallback_witness :
    (run (State.initial none (some (js "https://cdn.example.net/e1.ogg?k=1")))
        [.load, .click 0 false, .tick 350, .onerror 0, .tick 100, .timer 1]).log
      = [.appendButton 0, .setDisabled 0 true, .setLabel 0 .busy,
          .xmlhttpRequest (js "https://cdn.example.net/e1.ogg?k=1"), .consoleError,
          .setLabel 0 .failure,
          .createAnchor 0 (js "https://cdn.example.net/e1.ogg?k=1") (js "小宇宙播客.ogg"),
          .appendAnchor 0, .clickAnchor 0, .removeAnchor 0, .setLabel 0 .success] :=
  (download_error_fallback
    (run (State.initial none (some (js "https://cdn.example.net/e1.ogg?k=1"))) [.load])
    0 { label := .idle, disabled := false } (js "https://cdn.example.net/e1.ogg?k=1") 350 99 100
    (by decide) (by decide) (by decide) (by decide) (by decide) (by decide)).2.2.1.trans
    (by decide)

/-- C3: the scenario of the specification.  The filename computed for the heading
"第100期：测试/节目?" and the URL `https://cdn.example.net/audio/x.mp3?sig=abc` is
"第100期：测试节目.mp3" (the full-width colon stays), and it is the filename the
`onload` callback hands to `saveAs`. -/
theorem scenario_filename :
    fileName (some (js "第100期：测试/节目?")) (js "https://cdn.example.net/audio/x.mp3?sig=abc")
        = js "第100期：测试节目.mp3" ∧
      podcastTitle (some (js "第100期：测试/节目?")) = js "第100期：测试节目" ∧
      fileExt (js "https://cdn.example.net/audio/x.mp3?sig=abc") = js ".mp3" ∧
      (run (State.initial (some (js "第100期：测试/节目?"))
            (some (js "https://cdn.example.net/audio/x.mp3?sig=abc")))
          [.load, .click 0 false, .tick 500, .onload 0]).log
        = [.appendButton 0, .setDisabled 0 true, .setLabel 0 .busy,
            .xmlhttpRequest (js "https://cdn.example.net/audio/x.mp3?sig=abc"),
            .saveAs (js "第100期：测试节目.mp3"), .setLabel 0 .success] := by
  refine ⟨?_, ?_, ?_, ?_⟩ <;> decide

/-- C5 fails on the code.  A first download fails at 10 ms, so two resets are
scheduled (due 2010 and 2110 ms).  At 2050 ms the button is idle and enabled and the
reset due at 2110 ms is still pending.  The click at 2050 ms starts a download that
ends in `onload` at 2610 ms: exactly one `saveAs` call with the right filename and no
new anchor, but the stale reset fires at 2110 ms, while the request is pending, so
the labels of this activation run busy, idle, success, idle, and the button is
enabled from 2110 ms on instead of staying disabled until the final reset. -/
theorem stale_reset_breaks_success_sequence :
    ((run (State.initial none (some (js "https://cdn.example.net/e1.mp3")))
        [.load, .click 0 false, .tick 10, .onerror 0, .tick 100, .timer 1, .tick 1900, .timer 0,
          .tick 40]).buttons = [{ label := .idle, disabled := false }] ∧
      (run (State.initial none (some (js "https://cdn.example.net/e1.mp3")))
        [.load, .click 0 false, .tick 10, .onerror 0, .tick 100, .timer 1, .tick 1900, .timer 0,
          .tick 40]).timers = [{ due := 2110, callback := .reset 0 }] ∧
      (run (State.initial none (some (js "https://cdn.example.net/e1.mp3")))
        [.load, .click 0 false, .tick 10, .onerror 0, .tick 100, .timer 1, .tick 1900, .timer 0,
          .tick 40]).now = 2050) ∧
    ((run (State.initial none (some (js "https://cdn.example.net/e1.mp3")))
        [.load, .click 0 false, .tick 10, .onerror 0, .tick 100, .timer 1, .tick 1900, .timer 0,
          .tick 40, .click 0 false, .tick 60, .timer 0]).buttons
        = [{ label := .idle, disabled := false }] ∧
      (run (State.initial none (some (js "https://cdn.example.net/e1.mp3")))
        [.load, .click 0 false, .tick 10, .onerror 0, .tick 100, .timer 1, .tick 1900, .timer 0,
          .tick 40, .click 0 false, .tick 60, .timer 0]).requests
        = [{ btn := 0, url := js "https://cdn.example.net/e1.mp3",
             filename := js "小宇宙播客.mp3" }]) ∧
    ((run (State.initial none (some (js "https://cdn.example.net/e1.mp3")))
        [.load, .click 0 false, .tick 10, .onerror 0, .tick 100, .timer 1, .tick 1900, .timer 0,
          .tick 40, .click 0 false, .tick 60, .timer 0, .tick 500, .onload 0]).buttons
        = [{ label := .success, disabled := false }]) ∧
    (run (State.initial none (some (js "https://cdn.example.net/e1.mp3")))
        [.load, .click 0 false, .tick 10, .onerror 0, .tick 100, .timer 1, .tick 1900, .timer 0,
          .tick 40, .click 0 false, .tick 60, .timer 0, .tick 500, .onload 0, .tick 2000,
          .timer 0]).log
      = (run (State.initial none (some (js "https://cdn.example.net/e1.mp3")))
          [.load, .click 0 false, .tick 10, .onerror 0, .tick 100, .timer 1, .tick 1900, .timer 0,
            .tick 40]).log
        ++ [.setDisabled 0 true, .setLabel 0 .busy,
            .xmlhttpRequest (js "https://cdn.example.net/e1.mp3"),
            .setLabel 0 .idle, .setDisabled 0 false,
            .saveAs (js "小宇宙播客.mp3"), .setLabel 0 .success,
            .setLabel 0 .idle, .setDisabled 0 false] := by
  refine ⟨⟨?_, ?_, ?_⟩, ⟨?_, ?_⟩, ?_, ?_⟩ <;> decide

/-- C7 fails on the code.  After a request error the handler schedules two resets:
its own (due 2000 ms after the error) and the one of `fallbackDownload` (due
2100 ms after the error).  The first re-enables the button; a click 40 ms later
starts a second download; the second, stale reset then re-enables the button while
that download's request is pending, and a third click puts a second request in
flight.  Every timer of the trace fires exactly when it is due. -/
theorem stale_reset_enables_during_download :
    (run (State.initial none (some (js "https://cdn.example.net/e1.mp3")))
        [.load, .click 0 false, .tick 10, .onerror 0, .tick 100, .timer 1]).timers
        = [{ due := 2010, callback := .reset 0 }, { due := 2110, callback := .reset 0 }] ∧
      (run (State.initial none (some (js "https://cdn.example.net/e1.mp3")))
        [.load, .click 0 false, .tick 10, .onerror 0, .tick 100, .timer 1, .tick 1900, .timer 0,
          .tick 40, .click 0 false]).buttons
        = [{ label := .busy, disabled := true }] ∧
      (run (State.initial none (some (js "https://cdn.example.net/e1.mp3")))
        [.load, .click 0 false, .tick 10, .onerror 0, .tick 100, .timer 1, .tick 1900, .timer 0,
          .tick 40, .click 0 false, .tick 60, .timer 0]).requests.length = 1 ∧
      (run (State.initial none (some (js "https://cdn.example.net/e1.mp3")))
        [.load, .click 0 false, .tick 10, .onerror 0, .tick 100, .timer 1, .tick 1900, .timer 0,
          .tick 40, .click 0 false, .tick 60, .timer 0]).buttons
        = [{ label := .idle, disabled := false }] ∧
      (run (State.initial none (some (js "https://cdn.example.net/e1.mp3")))
        [.load, .click 0 false, .tick 10, .onerror 0, .tick 100, .timer 1, .tick 1900, .timer 0,
          .tick 40, .click 0 false, .tick 60, .timer 0, .click 0 false]).requests.length = 2 := by
  refine ⟨?_, ?_, ?_, ?_, ?_⟩ <;> decide

/-- C8 fails on the code for a synchronous exception.  When `GM_xmlhttpRequest`
throws, the `catch` block calls `fallbackDownload` once with the same URL and
filename, but the label is never set to failure: it stays busy.  On the `onerror`
path the label is set to failure before the fallback. -/
theorem catch_skips_failure_label :
    (run (State.initial none (some (js "https://cdn.example.net/e1.mp3")))
        [.load, .click 0 true]).log
      = [.appendButton 0, .setDisabled 0 true, .setLabel 0 .busy,
          .xmlhttpRequest (js "https://cdn.example.net/e1.mp3"), .consoleError,
          .createAnchor 0 (js "https://cdn.example.net/e1.mp3") (js "小宇宙播客.mp3"),
          .appendAnchor 0, .clickAnchor 0] ∧
      (run (State.initial none (some (js "https://cdn.example.net/e1.mp3")))
        [.load, .click 0 true]).buttons = [{ label := .busy, disabled := true }] ∧
      (run (State.initial none (some (js "https://cdn.example.net/e1.mp3")))
        [.load, .click 0 false, .onerror 0]).log
      = [.appendButton 0, .setDisabled 0 true, .setLabel 0 .busy,
          .xmlhttpRequest (js "https://cdn.example.net/e1.mp3"), .consoleError,
          .setLabel 0 .failure,
          .createAnchor 0 (js "https://cdn.example.net/e1.mp3") (js "小宇宙播客.mp3"),
          .appendAnchor 0, .clickAnchor 0] := by
  refine ⟨?_, ?_, ?_⟩ <;> decide

/-! ## Rendering -/

theorem buttons_runCallback (c : Callback) (s : State) :
    (runCallback c s).buttons.length = s.buttons.length := by
  cases c <;> simp [runCallback, setLabel, setDisabled, setTimeout, emit]

theorem buttons_step_of_ne_nil (s : State) (e : Event) (h : s.buttons ≠ []) :
    (step s e).buttons.length = s.buttons.length := by
  have hne : s.buttons.isEmpty = false := by
    cases hb : s.buttons with
    | nil => exact absurd hb h
    | cons _ _ => rfl
  cases e with
  | load => simp [step, onLoad, hne]
  | mutation => simp [step, onMutation, hne]
  | click btn throws =>
    simp only [step, onClick]
    split
    · rfl
    · split
      · rfl
      · split
        · rfl
        · split
          · rfl
          · split <;>
              simp [fallbackDownload, setTimeout, emit, setLabel, setDisabled]
  | onload i =>
    simp only [step, onRequestLoad]
    split <;> simp [setTimeout, emit, setLabel]
  | onerror i =>
    simp only [step, onRequestError]
    split <;> simp [fallbackDownload, setTimeout, emit, setLabel]
  | timer i =>
    simp only [step, onTimer]
    split
    · rfl
    · split
      · rw [buttons_runCallback]
      · rfl
  | tick ms => rfl
  | setAudio src => rfl
  | setTitle t => rfl

theorem buttons_step_of_nil (s : State) (e : Event) (h : s.buttons = []) :
    (step s e).buttons = [] ∨ (step s e).buttons.length = 1 := by
  cases e with
  | load => right; simp [step, onLoad, h, emit]
  | mutation =>
    simp only [step, onMutation]
    split
    · right; simp [onLoad, h, emit]
    · left; exact h
  | click btn throws => left; simp [step, onClick, h]
  | onload i =>
    left
    simp only [step, onRequestLoad]
    split <;> simp [setTimeout, emit, setLabel, h]
  | onerror i =>
    left
    simp only [step, onRequestError]
    split <;> simp [fallbackDownload, setTimeout, emit, setLabel, h]
  | timer i =>
    left
    simp only [step, onTimer]
    split
    · exact h
    · split
      · apply List.eq_nil_of_length_eq_zero
        rw [buttons_runCallback]
        simp [h]
      · exact h
  | tick ms => left; exact h
  | setAudio src => left; exact h
  | setTitle t => left; exact h

theorem buttons_run_of_one (events : List Event) :
    ∀ s : State, s.buttons.length = 1 → (run s events).buttons.length = 1 := by
  induction events with
  | nil => intro s h; exact h
  | cons e rest ih =>
    intro s h
    have hne : s.buttons ≠ [] := by
      intro h0; rw [h0] at h; simp at h
    exact ih (step s e) (by rw [buttons_step_of_ne_nil s e hne, h])

theorem buttons_run_le_one (events : List Event) :
    ∀ s : State, s.buttons = [] → (run s events).buttons.length ≤ 1 := by
  induction events with
  | nil => intro s h; simp [run, h]
  | cons e rest ih =>
    intro s h
    rcases buttons_step_of_nil s e h with h' | h'
    · exact ih (step s e) h'
    · exact le_of_eq (buttons_run_of_one rest (step s e) h')

theorem buttons_run_of_load (events : List Event) :
    ∀ s : State, s.buttons = [] → Event.load ∈ events → (run s events).buttons.length = 1 := by
  induction events with
  | nil => intro s _ hmem; simp at hmem
  | cons e rest ih =>
    intro s h hmem
    rcases buttons_step_of_nil s e h with h' | h'
    · rcases List.mem_cons.1 hmem with he | he
      · subst he
        simp [step, onLoad, h, emit] at h'
      · exact ih (step s e) h' he
    · exact buttons_run_of_one rest (step s e) h'

/-- C9: rendering is idempotent.  In a state that has a button, the `load` handler
and the mutation callback change nothing.  Starting without a button, no sequence
of events yields more than one button, and any sequence that contains a `load`
event yields exactly one; a load re-dispatched by the mutation callback is the same
handler. -/
theorem render_idempotent (s : State) :
    (s.buttons ≠ [] → step s .load = s ∧ step s .mutation = s) ∧
      (s.buttons = [] → ∀ events : List Event,
        (run s events).buttons.length ≤ 1 ∧
          (Event.load ∈ events → (run s events).buttons.length = 1)) ∧
      (s.buttons = [] → s.audioElement.isSome = true → step s .mutation = step s .load) := by
  refine ⟨?_, ?_, ?_⟩
  · intro h
    have hne : s.buttons.isEmpty = false := by
      cases hb : s.buttons with
      | nil => exact absurd hb h
      | cons _ _ => rfl
    simp [step, onLoad, onMutation, hne]
  · intro h events
    exact ⟨buttons_run_le_one events s h, buttons_run_of_load events s h⟩
  · intro h ha
    simp [step, onMutation, h, ha]

/-- C9 at concrete states: a second `load` on a rendered page changes nothing, and
three loads (one of them re-dispatched by the mutation callback) leave one button. -/
theorem render_idempotent_witness :
    step (run (State.initial none none) [.load]) .load = run (State.initial none none) [.load] ∧
      (run (State.initial none (some (js "https://cdn.example.net/e1.mp3")))
        [.mutation, .load, .load]).buttons.length = 1 :=
  ⟨((render_idempotent (run (State.initial none none) [.load])).1 (by decide)).1,
    ((render_idempotent (State.initial none (some (js "https://cdn.example.net/e1.mp3")))).2.1
      rfl [.mutation, .load, .load]).2 (by decide)⟩

/-! ## Every filename handed out is safe -/

theorem not_illegal_of_isAudioExt (e : JSString) (he : isAudioExt e = true) :
    ∀ u ∈ illegalChars, u ∉ e := by
  intro u hu hmem
  have hlow : ∀ v ∈ illegalChars, lower v = v := by decide
  have h1 : lower u ∈ e.map lower := List.mem_map_of_mem lower hmem
  rw [hlow u hu] at h1
  unfold isAudioExt at he
  rw [audioExts_eq] at he
  have h2 : e.map lower ∈ [[46, 109, 52, 97], [46, 109, 112, 51], [46, 97, 97, 99],
      [46, 111, 103, 103], [46, 119, 97, 118]] := by
    simpa using he
  have h3 : ∀ v ∈ illegalChars, ∀ x ∈ [[46, 109, 52, 97], [46, 109, 112, 51], [46, 97, 97, 99],
      [46, 111, 103, 103], [46, 119, 97, 118]], v ∉ x := by decide
  exact h3 u hu _ h2 h1

theorem fileExt_isAudioExt (url : JSString) : isAudioExt (fileExt url) = true := by
  unfold fileExt
  cases h : extMatch url with
  | none => decide
  | some m => exact isAudioExt_of_extMatch url m h

theorem not_illegal_podcastTitle (titleElement : Option JSString) :
    ∀ u ∈ illegalChars, u ∉ podcastTitle titleElement := by
  cases titleElement with
  | none => decide
  | some t =>
    intro u hu
    show u ∉ replaceIllegal (trim t)
    rw [replaceIllegal_eq_deleteIllegal]
    exact not_mem_deleteIllegal _ u hu

theorem safeName_fileName (titleElement : Option JSString) (url : JSString) :
    SafeName (fileName titleElement url) := by
  have he := fileExt_isAudioExt url
  refine ⟨?_, podcastTitle titleElement, fileExt url, rfl, length_of_isAudioExt _ he, he⟩
  intro u hu hmem
  rcases List.mem_append.1 hmem with h | h
  · exact not_illegal_podcastTitle titleElement u hu h
  · exact not_illegal_of_isAudioExt _ he u hu h

theorem namesSafe_emit (e : Effect) (s : State) (h : NamesSafe s)
    (he : ∀ f, e.handedName = some f → SafeName f) : NamesSafe (emit e s) := by
  refine ⟨h.1, ?_⟩
  intro e' hmem f hf
  simp only [emit, List.mem_append, List.mem_singleton] at hmem
  rcases hmem with hmem | hmem
  · exact h.2 e' hmem f hf
  · subst hmem
    exact he f hf

theorem namesSafe_setLabel (btn : Nat) (l : Label) (s : State) (h : NamesSafe s) :
    NamesSafe (setLabel btn l s) := by
  refine ⟨h.1, ?_⟩
  intro e' hmem f hf
  simp only [setLabel, List.mem_append, List.mem_singleton] at hmem
  rcases hmem with hmem | hmem
  · exact h.2 e' hmem f hf
  · subst hmem
    simp [Effect.handedName] at hf

theorem namesSafe_setDisabled (btn : Nat) (v : Bool) (s : State) (h : NamesSafe s) :
    NamesSafe (setDisabled btn v s) := by
  refine ⟨h.1, ?_⟩
  intro e' hmem f hf
  simp only [setDisabled, List.mem_append, List.mem_singleton] at hmem
  rcases hmem with hmem | hmem
  · exact h.2 e' hmem f hf
  · subst hmem
    simp [Effect.handedName] at hf

theorem namesSafe_setTimeout (c : Callback) (d : Nat) (s : State) (h : NamesSafe s) :
    NamesSafe (setTimeout c d s) := h

theorem namesSafe_fallbackDownload (btn : Nat) (url f : JSString) (s : State)
    (h : NamesSafe s) (hf : SafeName f) : NamesSafe (fallbackDownload btn url f s) := by
  unfold fallbackDownload
  apply namesSafe_setTimeout
  apply namesSafe_emit _ _ _ (by simp [Effect.handedName])
  apply namesSafe_emit _ _ _ (by simp [Effect.handedName])
  apply namesSafe_emit
  · exact h
  · intro f' hf'
    simp only [Effect.handedName, Option.some.injEq] at hf'
    exact hf' ▸ hf

theorem namesSafe_eraseRequest (i : Nat) (s : State) (h : NamesSafe s) :
    NamesSafe { s with requests := s.requests.eraseIdx i } :=
  ⟨fun r hr => h.1 r (List.mem_of_mem_eraseIdx hr), h.2⟩

theorem namesSafe_runCallback (c : Callback) (s : State) (h : NamesSafe s) :
    NamesSafe (runCallback c s) := by
  cases c with
  | reset btn =>
    exact namesSafe_setDisabled _ _ _ (namesSafe_setLabel _ _ _ h)
  | cleanup btn a =>
    exact namesSafe_setTimeout _ _ _ (namesSafe_setLabel _ _ _
      (namesSafe_emit _ _ h (by simp [Effect.handedName])))

theorem namesSafe_step (s : State) (e : Event) (h : NamesSafe s) : NamesSafe (step s e) := by
  cases e with
  | load =>
    simp only [step, onLoad]
    split
    · exact namesSafe_emit _ _ h (by simp [Effect.handedName])
    · exact h
  | mutation =>
    simp only [step, onMutation]
    split
    · simp only [onLoad]
      split
      · exact namesSafe_emit _ _ h (by simp [Effect.handedName])
      · exact h
    · exact h
  | click btn throws =>
    simp only [step, onClick]
    split
    · exact h
    · split
      · exact h
      · split
        · exact namesSafe_emit _ _ h (by simp [Effect.handedName])
        · rename_i audioUrl _
          split
          · exact namesSafe_emit _ _ h (by simp [Effect.handedName])
          · have h1 : NamesSafe (emit (.xmlhttpRequest audioUrl)
                (setLabel btn .busy (setDisabled btn true s))) :=
              namesSafe_emit _ _ (namesSafe_setLabel _ _ _ (namesSafe_setDisabled _ _ _ h))
                (by simp [Effect.handedName])
            split
            · exact namesSafe_fallbackDownload _ _ _ _
                (namesSafe_emit _ _ h1 (by simp [Effect.handedName]))
                (safeName_fileName s.titleElement audioUrl)
            · refine ⟨?_, h1.2⟩
              intro r hr
              rcases List.mem_append.1 hr with hr | hr
              · exact h1.1 r hr
              · rw [List.mem_singleton] at hr
                subst hr
                exact safeName_fileName s.titleElement audioUrl
  | onload i =>
    simp only [step, onRequestLoad]
    split
    · exact h
    · rename_i r hr
      have hsafe : SafeName r.filename := h.1 r (List.getElem?_mem hr)
      apply namesSafe_setTimeout
      apply namesSafe_setLabel
      apply namesSafe_emit _ _ (namesSafe_eraseRequest i s h)
      intro f hf
      simp only [Effect.handedName, Option.some.injEq] at hf
      exact hf ▸ hsafe
  | onerror i =>
    simp only [step, onRequestError]
    split
    · exact h
    · rename_i r hr
      have hsafe : SafeName r.filename := h.1 r (List.getElem?_mem hr)
      apply namesSafe_fallbackDownload _ _ _ _ _ hsafe
      apply namesSafe_setTimeout
      apply namesSafe_setLabel
      exact namesSafe_emit _ _ (namesSafe_eraseRequest i s h) (by simp [Effect.handedName])
  | timer i =>
    simp only [step, onTimer]
    split
    · exact h
    · split
      · exact namesSafe_runCallback _ _ ⟨h.1, h.2⟩
      · exact h
  | tick ms => exact h
  | setAudio src => exact h
  | setTitle t => exact h

theorem namesSafe_run (events : List Event) :
    ∀ s : State, NamesSafe s → NamesSafe (run s events) := by
  induction events with
  | nil => intro s h; exact h
  | cons e rest ih => intro s h; exact ih (step s e) (namesSafe_step s e h)

/-- C10: for every heading state and every audio URL the computed filename contains
none of the nine characters and ends with a 4-character extension that is one of
`.m4a`, `.mp3`, `.aac`, `.ogg`, `.wav` up to letter case; and in every state the
script reaches from its start, every filename handed to `saveAs` or set as the
`download` of a fallback anchor is such a filename. -/
theorem filename_always_safe :
    (∀ (titleElement : Option JSString) (audioUrl : JSString),
        SafeName (fileName titleElement audioUrl)) ∧
      (∀ (titleElement audioElement : Option JSString) (events : List Event) (e : Effect),
        e ∈ (run (State.initial titleElement audioElement) events).log →
          (∀ f, e = .saveAs f → SafeName f) ∧
            (∀ a href f, e = .createAnchor a href f → SafeName f)) := by
  refine ⟨safeName_fileName, ?_⟩
  intro t a events e hmem
  have hinit : NamesSafe (State.initial t a) := by
    constructor
    · intro r hr; simp [State.initial] at hr
    · intro e he; simp [State.initial] at he
  have h := (namesSafe_run events _ hinit).2 e hmem
  constructor
  · intro f hf
    exact h f (by rw [hf]; rfl)
  · intro n href f hf
    exact h f (by rw [hf]; rfl)

/-- C10 at a concrete run: the filename the scenario of the specification hands to
`saveAs` is safe. -/
theorem filename_always_safe_witness : SafeName (js "第100期：测试节目.mp3") :=
  (filename_always_safe.2 (some (js "第100期：测试/节目?"))
    (some (js "https://cdn.example.net/audio/x.mp3?sig=abc"))
    [.load, .click 0 false, .tick 500, .onload 0] (.saveAs (js "第100期：测试节目.mp3"))
    (by decide)).1 _ rfl

end Xiaoyuzhou
